import Mathlib

/-!
Verification of the plugin-coordination core of incipio.

Go strings are modelled as lists of characters (`GoString`); Go maps keyed by
string are modelled as functions `GoString → Option _`; a method that mutates
its receiver is modelled as a function returning the new state (paired with the
returned values).  Source files embedded here:
`internal/app/model.go` (PluginManager and the interaction loop),
`internal/yaegi/yaegi.go` (dynamic loader), and the main package's
`registerPlugins` loop.
-/

namespace Incipio

/-- A Go string, as a list of characters. -/
abbrev GoString := List Char

/-- The whitespace predicate of Go's `unicode.IsSpace` restricted to the
Latin-1 range (space, tab, newline, vertical tab, form feed, carriage return,
NEL, NBSP); `strings.TrimSpace` trims exactly these characters on ASCII-range
input. -/
def isSpaceChar (c : Char) : Bool :=
  c == ' ' || c == '\t' || c == '\n' || c == Char.ofNat 11 || c == Char.ofNat 12 ||
    c == '\r' || c == Char.ofNat 133 || c == Char.ofNat 160

/-- Go `strings.TrimSpace`: drop whitespace from both ends. -/
def trimSpace (s : GoString) : GoString :=
  ((s.dropWhile isSpaceChar).reverse.dropWhile isSpaceChar).reverse

/-- Go `strings.HasPrefix s pre`. -/
def goHasPrefix : (s pre : GoString) → Bool
  | _, [] => true
  | [], _ :: _ => false
  | c :: cs, d :: ds => c == d && goHasPrefix cs ds

/-- `plugin.Metadata` (package pkgs/plugin is not under src/, but the struct's
fields are fixed by every literal in the repository, e.g. the
`plugin.Metadata{...}` literals of the built-in plugins). -/
structure Metadata where
  name : GoString
  description : GoString
  keyword : GoString
  flag : GoString
  isMandatory : Bool
  isDefault : Bool
deriving DecidableEq

/-- `plugin.Result`: title, description and an opaque identifier. -/
structure Result where
  title : GoString
  description : GoString
  identifier : GoString
deriving DecidableEq

/-- Errors returned by `PluginManager.GetResults` or by a plugin's own
`GetResults`; Go `error` values are abstracted to which error occurred. -/
inductive GoErr
  | noActivePlugin
  | pluginErr (msg : GoString)
deriving DecidableEq

/-- A plugin instance.  The Plugin interface lives in pkgs/plugin (not under
src/); every implementation in the repository returns its constant metadata
from `Metadata()` and `metadata.Keyword` from `Keyword()`, so an instance is
its metadata plus its `GetResults` behaviour; `instanceId` models Go object
identity, so that two distinct instances with equal metadata can be told
apart. -/
structure Plugin where
  instanceId : Nat
  metadata : Metadata
  getResults : GoString → List Result × Option GoErr

/-- `Plugin.Keyword()`: every implementation in the repository returns
`metadata.Keyword`. -/
def Plugin.Keyword (p : Plugin) : GoString := p.metadata.keyword

/-- The state of `PluginManager` (model.go lines 503-509). -/
structure PluginManager where
  plugins : GoString → Option Plugin
  disabledPluginsMetadata : GoString → Option Metadata
  defaultPlugin : Option Plugin
  activePlugin : Option Plugin
  sortedKeywords : List GoString

/-- `NewPluginManager` (model.go 512-518). -/
def NewPluginManager : PluginManager where
  plugins := fun _ => none
  disabledPluginsMetadata := fun _ => none
  defaultPlugin := none
  activePlugin := none
  sortedKeywords := []

/-- Write into a Go map. -/
def mapInsert {α : Type} (m : GoString → Option α) (k : GoString) (v : α) :
    GoString → Option α :=
  fun k' => if k' = k then some v else m k'

/-- Insert a keyword into a list kept sorted by length, descending.
`RegisterPlugin` appends the new keyword and re-sorts the whole list with
`sort.Slice(..., len i > len j)` (model.go 539-542); since the list is already
in length-descending order before the append, inserting the one new keyword at
its place realizes that re-sort. -/
def insertByLenDesc (k : GoString) : List GoString → List GoString
  | [] => [k]
  | x :: xs => if x.length < k.length then k :: x :: xs else x :: insertByLenDesc k xs

/-- Errors of `RegisterPlugin` / `RegisterMetadata` (the two `fmt.Errorf`
sites), abstracted to which error occurred. -/
inductive RegError
  | emptyKeyword
  | duplicateKeyword
deriving DecidableEq

/-- `RegisterPlugin` (model.go 521-558).  Returns the new manager state and
the returned error. -/
def RegisterPlugin (pm : PluginManager) (p : Plugin) : PluginManager × Option RegError :=
  let keyword := p.metadata.keyword
  if keyword = [] then (pm, some .emptyKeyword)
  else if (pm.plugins keyword).isSome then (pm, some .duplicateKeyword)
  else
    let pm1 : PluginManager :=
      { pm with
        plugins := mapInsert pm.plugins keyword p
        sortedKeywords := insertByLenDesc keyword pm.sortedKeywords }
    let pm2 : PluginManager :=
      if p.metadata.isDefault then
        { pm1 with
          defaultPlugin := some p
          activePlugin := if pm1.activePlugin.isNone then some p else pm1.activePlugin }
      else pm1
    (pm2, none)

/-- `RegisterMetadata` (model.go 561-582): stores metadata for disabled
plugins; a no-op (without error) when the keyword is already enabled; an
already-present disabled entry is overwritten with a warning. -/
def RegisterMetadata (pm : PluginManager) (md : Metadata) : PluginManager × Option RegError :=
  if md.keyword = [] then (pm, some .emptyKeyword)
  else if (pm.plugins md.keyword).isSome then (pm, none)
  else
    ({ pm with
        disabledPluginsMetadata := mapInsert pm.disabledPluginsMetadata md.keyword md },
      none)

/-- The keyword-match condition of the routing loop (model.go 595-596):
non-empty keyword, prefix of the trimmed query, and either exact or followed
by a space. -/
def matchesKeyword (trimmedQuery keyword : GoString) : Bool :=
  !keyword.isEmpty && goHasPrefix trimmedQuery keyword &&
    (trimmedQuery.length == keyword.length ||
      (Nat.blt keyword.length trimmedQuery.length &&
        (trimmedQuery[keyword.length]? == some ' ')))

/-- The `for` loop of `DetermineActivePlugin` (model.go 594-603): walk the
keywords, and break with the first matching keyword that is found in the
plugin map. -/
def findMatch (plugins : GoString → Option Plugin) (trimmedQuery : GoString) :
    List GoString → Option Plugin
  | [] => none
  | k :: ks =>
    if matchesKeyword trimmedQuery k then
      match plugins k with
      | some p => some p
      | none => findMatch plugins trimmedQuery ks
    else findMatch plugins trimmedQuery ks

/-- The plugin resolved by `DetermineActivePlugin` before the active reference
is touched (model.go 592-603): the first boundary match, else the default. -/
def determinePlugin (pm : PluginManager) (query : GoString) : Option Plugin :=
  match findMatch pm.plugins (trimSpace query) pm.sortedKeywords with
  | some p => some p
  | none => pm.defaultPlugin

/-- Keyword of an optional plugin, `""` when absent (model.go 587-590 and
605-608 compute keywords exactly this way). -/
def optKeyword : Option Plugin → GoString
  | none => []
  | some p => p.Keyword

/-- `DetermineActivePlugin` (model.go 585-619).  Returns the new state, the
returned plugin (the active reference after the call) and `switched`. -/
def DetermineActivePlugin (pm : PluginManager) (query : GoString) :
    PluginManager × Option Plugin × Bool :=
  let currentActiveKeyword := optKeyword pm.activePlugin
  let determined := determinePlugin pm query
  let determinedKeyword := optKeyword determined
  let switched : Bool := decide (currentActiveKeyword ≠ determinedKeyword)
  let pmA : PluginManager := if switched then { pm with activePlugin := determined } else pm
  let pmB : PluginManager :=
    if pmA.activePlugin.isNone then { pmA with activePlugin := pmA.defaultPlugin } else pmA
  (pmB, pmB.activePlugin, switched)

/-- `GetCurrentPlugin` (model.go 622-627). -/
def GetCurrentPlugin (pm : PluginManager) : Option Plugin :=
  match pm.activePlugin with
  | none => pm.defaultPlugin
  | some p => some p

/-- The effective query handed to the active plugin by `GetResults`
(model.go 636-647): starts as the raw query; when the active plugin is not
the default, its keyword is non-empty and a prefix of the trimmed query, the
keyword (and, when present, one following space) is stripped and the
remainder trimmed. -/
def computePluginQuery (active : Plugin) (query : GoString) : GoString :=
  let trimmedQuery := trimSpace query
  let activeKeyword := active.Keyword
  if !active.metadata.isDefault && !activeKeyword.isEmpty &&
      goHasPrefix trimmedQuery activeKeyword then
    let prefixLen := activeKeyword.length
    if Nat.blt prefixLen trimmedQuery.length && (trimmedQuery[prefixLen]? == some ' ') then
      trimSpace (trimmedQuery.drop (prefixLen + 1))
    else if trimmedQuery.length == prefixLen then []
    else query
  else query

/-- `PluginManager.GetResults` (model.go 630-649).  The method mutates
nothing, so the state is returned alongside the plugin's answer. -/
def GetResults (pm : PluginManager) (query : GoString) :
    PluginManager × (List Result × Option GoErr) :=
  match GetCurrentPlugin pm with
  | none => (pm, ([], some .noActivePlugin))
  | some active => (pm, active.getResults (computePluginQuery active query))

/-- `UpdatePluginInstance` (model.go 707-741).  The argument is optional to
model the `nil` check at the top. -/
def UpdatePluginInstance (pm : PluginManager) (updatedPlugin : Option Plugin) :
    PluginManager :=
  match updatedPlugin with
  | none => pm
  | some p =>
    let keyword := p.Keyword
    if keyword.isEmpty then pm
    else if (pm.plugins keyword).isNone then pm
    else
      let pm1 : PluginManager := { pm with plugins := mapInsert pm.plugins keyword p }
      let pm2 : PluginManager :=
        match pm1.activePlugin with
        | some a => if a.Keyword = keyword then { pm1 with activePlugin := some p } else pm1
        | none => pm1
      match pm2.defaultPlugin with
      | some d => if d.Keyword = keyword then { pm2 with defaultPlugin := some p } else pm2
      | none => pm2

/- ------------------------------------------------------------------ -/
/- Dynamic plugin loader (internal/yaegi/yaegi.go)                     -/
/- ------------------------------------------------------------------ -/

/-- The fate of one candidate file once the per-file processing of
`LoadPlugins` reaches it (yaegi.go 56-113): each constructor names the first
step that fails, `ctorOk` the successful run of `main.New`.  `ctorPanic`
models a `New` function that panics when called at line 108. -/
inductive FileOutcome
  | useStdlibErr
  | useSymbolsErr
  | readErr
  | evalErr
  | evalNewErr
  | wrongType
  | ctorNil
  | ctorPanic
  | ctorOk (p : Plugin)

/-- A directory entry of the plugin directory. -/
structure PluginFile where
  name : GoString
  isDir : Bool
  outcome : FileOutcome

/-- Go `strings.HasSuffix name ".go"`. -/
def hasGoSuffix (n : GoString) : Bool :=
  goHasPrefix n.reverse ['o', 'g', '.']

/-- Whether the per-file processing catches this outcome, logs it and moves on
to the next file (every `continue` of yaegi.go 60-113). -/
def isSkippedOutcome : FileOutcome → Bool
  | .useStdlibErr | .useSymbolsErr | .readErr | .evalErr
  | .evalNewErr | .wrongType | .ctorNil => true
  | .ctorPanic => false
  | .ctorOk _ => false

/-- The `for` loop of `LoadPlugins` (yaegi.go 47-125).  `none` models the loop
aborting because a plugin constructor panicked: `LoadPlugins` contains no
`recover`, so a panic raised by `newFunc()` at line 108 propagates out of the
function. -/
def loadLoop : List PluginFile → Option (List Plugin)
  | [] => some []
  | f :: fs =>
    if f.isDir || !hasGoSuffix f.name then loadLoop fs
    else
      match f.outcome with
      | .ctorOk p => (loadLoop fs).map (fun ps => p :: ps)
      | .ctorPanic => none
      | _ => loadLoop fs

/-- The environment `LoadPlugins` finds: which of its preliminary checks
(yaegi.go 23-43) fails, or the directory listing. -/
inductive DirState
  | configHomeMissing
  | pluginDirMissing
  | readDirErr
  | getwdErr
  | files (fs : List PluginFile)

/-- Whether `LoadPlugins` returned an error (yaegi.go 35 or 42). -/
inductive LoadError
  | readDirErr
  | getwdErr
deriving DecidableEq

/-- `LoadPlugins` (yaegi.go 20-128): the loaded plugins and the returned
error; the outer `Option` is `none` when a constructor panic escapes. -/
def LoadPlugins : DirState → Option (List Plugin × Option LoadError)
  | .configHomeMissing => some ([], none)
  | .pluginDirMissing => some ([], none)
  | .readDirErr => some ([], some .readDirErr)
  | .getwdErr => some ([], some .getwdErr)
  | .files fs => (loadLoop fs).map (fun ps => (ps, none))

/- ------------------------------------------------------------------ -/
/- Interaction loop (internal/app/model.go, Update / handleQueryChange) -/
/- ------------------------------------------------------------------ -/

/-- `listItem` (model.go 93-97). -/
structure ListItem where
  title : GoString
  description : GoString
  identifier : GoString
deriving DecidableEq

/-- `resultsMsg` (model.go 283-288). -/
structure ResultsMsg where
  results : List Result
  err : Option GoErr
  pluginSwitched : Bool
  forQuery : GoString

/-- The dispatch-relevant fields of `model` (model.go 134-146): the manager,
the text input's value, `lastQuery`, the list items, the error slot, whether
the debounce timer is armed, and the quitting flag. -/
structure LoopModel where
  pm : PluginManager
  textValue : GoString
  lastQuery : GoString
  items : List ListItem
  err : Option GoErr
  debounceRunning : Bool
  quitting : Bool

/-- The `resultsMsg` case of `Update` (model.go 332-359): drop the message
when its query differs from `m.lastQuery`; otherwise replace the error slot
and the items (cursor movement and filter resets do not change the items). -/
def updateResultsMsg (m : LoopModel) (msg : ResultsMsg) : LoopModel :=
  if msg.forQuery ≠ m.lastQuery then m
  else
    match msg.err with
    | some e => { m with err := some e, items := [] }
    | none =>
      { m with
        err := none
        items := msg.results.map (fun r => ⟨r.title, r.description, r.identifier⟩) }

/-- `handleQueryChange` (model.go 455-481): reset the error, re-route, clear
the list on a switch (or when no plugin at all resolved), and arm the command
that will deliver a `resultsMsg` carrying `newQuery`; the second component is
the `forQuery` of that armed command, `none` when no command was armed. -/
def handleQueryChange (m : LoopModel) (newQuery : GoString) : LoopModel × Option GoString :=
  let m1 : LoopModel := { m with err := none }
  let r := DetermineActivePlugin m1.pm newQuery
  let m2 : LoopModel := { m1 with pm := r.1 }
  let m3 : LoopModel := if r.2.2 then { m2 with items := [] } else m2
  match r.2.1 with
  | none => (if r.2.2 then m3 else { m3 with items := [] }, none)
  | some _ => (m3, some newQuery)

/-- The escape-key case of `Update` (model.go 367-391): stop the debounce
timer; with non-empty text, clear the text and the error and re-run
`handleQueryChange ""` (the cleared plugin's own update touches only plugin
state); with empty text, quit.  Note that `m.lastQuery` is not touched. -/
def updateEscKey (m : LoopModel) : LoopModel × Option GoString :=
  let m1 : LoopModel := { m with debounceRunning := false }
  if m1.textValue ≠ [] then
    handleQueryChange { m1 with textValue := [], err := none } []
  else
    ({ m1 with quitting := true }, none)

/-- The `processQueryMsg` case of `Update` (model.go 322-330): when the timer
was armed, process `m.lastQuery`; then clear the timer. -/
def updateProcessQuery (m : LoopModel) : LoopModel × Option GoString :=
  if m.debounceRunning then
    let r := handleQueryChange m m.lastQuery
    ({ r.1 with debounceRunning := false }, r.2)
  else
    ({ m with debounceRunning := false }, none)

/-- The text-editing tail of `Update` (model.go 428-447): after the input
component produced `newText`, record it, and when it differs from the
previous text store it in `lastQuery` and (re)arm the debounce timer. -/
def updateTyping (m : LoopModel) (newText : GoString) : LoopModel :=
  let queryBefore := m.textValue
  let m1 : LoopModel := { m with textValue := newText }
  if newText ≠ queryBefore then
    { m1 with lastQuery := newText, debounceRunning := true }
  else m1

/-- One iteration of the `registerPlugins` loop of the main package: register
fully when mandatory or flag-enabled (a registration error is fatal, modelled
as `none`), otherwise record only the metadata (a metadata error is only
logged). -/
def registerPluginsStep (enabledFlags : List GoString) (pm : PluginManager) (p : Plugin) :
    Option PluginManager :=
  let md := p.metadata
  let isEnabled : Bool := decide (md.flag ∈ enabledFlags)
  if md.isMandatory || isEnabled then
    match RegisterPlugin pm p with
    | (pm', none) => some pm'
    | (_, some _) => none
  else if !md.isMandatory then
    some (RegisterMetadata pm md).1
  else
    some pm

/-- The `registerPlugins` loop over the whole plugin list (main package):
a registration error is `logger.Fatal`, modelled as `none`. -/
def registerPluginsLoop (enabledFlags : List GoString) :
    PluginManager → List Plugin → Option PluginManager
  | pm, [] => some pm
  | pm, p :: ps =>
    match registerPluginsStep enabledFlags pm p with
    | some pm' => registerPluginsLoop enabledFlags pm' ps
    | none => none

/-- An operation of the manager's mutating interface, for stating properties
of arbitrary operation sequences. -/
inductive Op
  | reg (p : Plugin)
  | det (q : GoString)
  | upd (p : Option Plugin)

/-- Apply one operation (discarding returned values). -/
def applyOp (pm : PluginManager) : Op → PluginManager
  | .reg p => (RegisterPlugin pm p).1
  | .det q => (DetermineActivePlugin pm q).1
  | .upd p => UpdatePluginInstance pm p

/-- Apply a sequence of operations. -/
def applyOps (pm : PluginManager) (ops : List Op) : PluginManager :=
  ops.foldl applyOp pm

/-- Well-formedness of a manager state, as established by registration: every
stored plugin is keyed by its own non-empty keyword, every key is in the
keyword list, the keyword list is in length-descending order, and the default
plugin (when set) is stored in the map. -/
structure WF (pm : PluginManager) : Prop where
  kw_eq : ∀ k p, pm.plugins k = some p → p.Keyword = k
  ne_nil : ∀ k, (pm.plugins k).isSome → k ≠ []
  mem_keys : ∀ k, (pm.plugins k).isSome → k ∈ pm.sortedKeywords
  sorted : pm.sortedKeywords.Pairwise (fun a b => b.length ≤ a.length)
  default_mem : ∀ d, pm.defaultPlugin = some d → (pm.plugins d.Keyword).isSome

/- ------------------------------------------------------------------ -/
/- Concrete fixtures for witnesses and counterexamples                 -/
/- ------------------------------------------------------------------ -/

/-- Conversion of a Lean string literal to a `GoString`. -/
def gs (s : String) : GoString := s.data

/-- An echoing results function: returns its effective query back as the only
result, so theorems can observe what query a plugin received. -/
def echoResults (q : GoString) : List Result × Option GoErr := ([⟨q, [], q⟩], none)

/-- The default plugin fixture, keyword `"!a"` (like the app launcher). -/
def pluginA : Plugin where
  instanceId := 0
  metadata :=
    { name := gs (r"launcher"), description := [], keyword := gs (r"!a")
      flag := [], isMandatory := true, isDefault := true }
  getResults := echoResults

/-- A non-default plugin fixture with keyword `"!w"`. -/
def pluginW : Plugin where
  instanceId := 1
  metadata :=
    { name := gs (r"web"), description := [], keyword := gs (r"!w")
      flag := [], isMandatory := true, isDefault := false }
  getResults := echoResults

/-- A non-default plugin fixture with keyword `"!wiki"`. -/
def pluginWiki : Plugin where
  instanceId := 2
  metadata :=
    { name := gs (r"wikipedia"), description := [], keyword := gs (r"!wiki")
      flag := [], isMandatory := true, isDefault := false }
  getResults := echoResults

/-- A second, distinct instance carrying keyword `"!w"`. -/
def pluginW2 : Plugin where
  instanceId := 10
  metadata :=
    { name := gs (r"web2"), description := [], keyword := gs (r"!w")
      flag := [], isMandatory := true, isDefault := false }
  getResults := echoResults

/-- A plugin fixture with an empty keyword. -/
def pluginEmptyKw : Plugin where
  instanceId := 3
  metadata :=
    { name := gs (r"broken"), description := [], keyword := []
      flag := [], isMandatory := true, isDefault := false }
  getResults := echoResults

/-- Manager with the default plugin registered. -/
def pmA : PluginManager := (RegisterPlugin NewPluginManager pluginA).1

/-- Manager with default plus `"!w"` registered. -/
def pmAW : PluginManager := (RegisterPlugin pmA pluginW).1

/-- Manager with default plus `"!w"` plus `"!wiki"` registered. -/
def pmAll : PluginManager := (RegisterPlugin pmAW pluginWiki).1

/-- `pmAll` after routing the query `"!w term"`: the `"!w"` plugin is active. -/
def pmActiveW : PluginManager := (DetermineActivePlugin pmAll (gs (r"!w term"))).1

/-- Fixtures for the C9 scenario: a default plugin with keyword `"!d"`. -/
def pluginD9 : Plugin where
  instanceId := 20
  metadata :=
    { name := gs (r"default9"), description := [], keyword := gs (r"!d")
      flag := [], isMandatory := true, isDefault := true }
  getResults := echoResults

/-- An enabled (mandatory) plugin with keyword `"x"`. -/
def pluginX9 : Plugin where
  instanceId := 21
  metadata :=
    { name := gs (r"xplugin"), description := [], keyword := gs (r"x")
      flag := [], isMandatory := true, isDefault := false }
  getResults := echoResults

/-- An optional plugin with keyword `"x y"` and flag `"h"`, which stays
disabled when its flag is not passed at startup. -/
def pluginDis9 : Plugin where
  instanceId := 22
  metadata :=
    { name := gs (r"spacey"), description := [], keyword := gs (r"x y")
      flag := gs (r"h"), isMandatory := false, isDefault := false }
  getResults := echoResults

/-- The state `registerPlugins` produces from those three plugins with an
empty enable-flag list (`none` never occurs; `getD` only unwraps). -/
def pm9 : PluginManager :=
  (registerPluginsLoop [] NewPluginManager [pluginD9, pluginX9, pluginDis9]).getD NewPluginManager

/-- Loop-model fixtures (C3): the initial model over `pmA`. -/
def m3Init : LoopModel where
  pm := pmA
  textValue := []
  lastQuery := []
  items := []
  err := none
  debounceRunning := false
  quitting := false

/-- The model after the user typed `"a"`. -/
def m3Typed : LoopModel := updateTyping m3Init (gs (r"a"))

/-- The model after the debounce timer fired: `getResults("a")` is now in
flight (the armed command carries `forQuery = "a"`). -/
def m3Flight : LoopModel := (updateProcessQuery m3Typed).1

/-- The model after the user pressed escape: the text is empty again, but
`lastQuery` still holds `"a"`. -/
def m3Esc : LoopModel := (updateEscKey m3Flight).1

/-- The in-flight results message computed for query `"a"`. -/
def msg3Stale : ResultsMsg where
  results := [⟨gs (r"hit"), [], gs (r"hit")⟩]
  err := none
  pluginSwitched := false
  forQuery := gs (r"a")

/-- The results message of the refresh the escape handler itself requested,
computed for the (current) empty query. -/
def msg3Fresh : ResultsMsg where
  results := [⟨gs (r"fresh"), [], gs (r"fresh")⟩]
  err := none
  pluginSwitched := false
  forQuery := []

/-- Loader fixtures (C7): a plugin a valid extension file constructs. -/
def pluginYaegi : Plugin where
  instanceId := 30
  metadata :=
    { name := gs (r"yaegi-example"), description := [], keyword := gs (r"!y")
      flag := gs (r"y"), isMandatory := false, isDefault := false }
  getResults := echoResults

/-- A valid candidate file. -/
def fGood : PluginFile where
  name := gs (r"good.go")
  isDir := false
  outcome := .ctorOk pluginYaegi

/-- A candidate file whose `New` constructor panics when called. -/
def fPanic : PluginFile where
  name := gs (r"panics.go")
  isDir := false
  outcome := .ctorPanic

/-- A candidate file whose top-level evaluation fails. -/
def fEvalErr : PluginFile where
  name := gs (r"bad.go")
  isDir := false
  outcome := .evalErr

/- ------------------------------------------------------------------ -/
/- Helper lemmas                                                       -/
/- ------------------------------------------------------------------ -/

theorem goHasPrefix_iff : ∀ (s pre : GoString), goHasPrefix s pre = true ↔ ∃ r, s = pre ++ r
  | _, [] => by simp [goHasPrefix]
  | [], _ :: _ => by simp [goHasPrefix]
  | c :: cs, d :: ds => by
    simp only [goHasPrefix, Bool.and_eq_true, beq_iff_eq]
    constructor
    · rintro ⟨rfl, h⟩
      obtain ⟨r, rfl⟩ := (goHasPrefix_iff cs ds).1 h
      exact ⟨r, rfl⟩
    · rintro ⟨r, h⟩
      rw [List.cons_append] at h
      injection h with h1 h2
      exact ⟨h1, (goHasPrefix_iff cs ds).2 ⟨r, h2⟩⟩

theorem length_le_of_goHasPrefix {s pre : GoString} (h : goHasPrefix s pre = true) :
    pre.length ≤ s.length := by
  obtain ⟨r, rfl⟩ := (goHasPrefix_iff s pre).1 h
  simp

theorem eq_of_goHasPrefix_of_length_le {s pre : GoString} (h : goHasPrefix s pre = true)
    (hl : s.length ≤ pre.length) : pre = s := by
  obtain ⟨r, rfl⟩ := (goHasPrefix_iff s pre).1 h
  have hr : r = [] := by
    rw [List.length_append] at hl
    have : r.length = 0 := by omega
    exact List.length_eq_zero.1 this
  simp [hr]

theorem length_lt_of_goHasPrefix_of_ne {s pre : GoString} (h : goHasPrefix s pre = true)
    (hne : pre ≠ s) : pre.length < s.length := by
  rcases Nat.lt_or_ge pre.length s.length with hlt | hge
  · exact hlt
  · exact absurd (eq_of_goHasPrefix_of_length_le h hge) hne

theorem matchesKeyword_iff {t k : GoString} :
    matchesKeyword t k = true ↔
      k ≠ [] ∧ goHasPrefix t k = true ∧
        (t.length = k.length ∨ (k.length < t.length ∧ t[k.length]? = some ' ')) := by
  cases k with
  | nil => simp [matchesKeyword]
  | cons c cs =>
    simp [matchesKeyword, Bool.and_eq_true, Bool.or_eq_true, Nat.blt_eq, and_assoc]

theorem matchesKeyword_ne_nil {t k : GoString} (h : matchesKeyword t k = true) : k ≠ [] :=
  (matchesKeyword_iff.1 h).1

theorem mem_insertByLenDesc {a k : GoString} :
    ∀ {l : List GoString}, a ∈ insertByLenDesc k l ↔ a = k ∨ a ∈ l
  | [] => by simp [insertByLenDesc]
  | x :: xs => by
    simp only [insertByLenDesc]
    split
    · simp [List.mem_cons]
    · rw [List.mem_cons, mem_insertByLenDesc (l := xs), List.mem_cons]
      tauto

theorem pairwise_insertByLenDesc {k : GoString} :
    ∀ {l : List GoString}, l.Pairwise (fun a b => b.length ≤ a.length) →
      (insertByLenDesc k l).Pairwise (fun a b => b.length ≤ a.length)
  | [], _ => by simp [insertByLenDesc]
  | x :: xs, h => by
    rw [List.pairwise_cons] at h
    simp only [insertByLenDesc]
    split
    · rename_i hx
      refine List.pairwise_cons.2 ⟨?_, List.pairwise_cons.2 ⟨h.1, h.2⟩⟩
      intro y hy
      rcases List.mem_cons.1 hy with rfl | hy
      · exact Nat.le_of_lt hx
      · exact Nat.le_trans (h.1 y hy) (Nat.le_of_lt hx)
    · rename_i hx
      refine List.pairwise_cons.2 ⟨?_, pairwise_insertByLenDesc h.2⟩
      intro y hy
      rcases mem_insertByLenDesc.1 hy with rfl | hy
      · exact Nat.le_of_not_lt hx
      · exact h.1 y hy

/-- The routing loop finds a plugin at least as long as any registered
boundary-matching keyword (the list being in length-descending order). -/
theorem findMatch_longest {plugins : GoString → Option Plugin} {t k' : GoString} :
    ∀ {l : List GoString}, l.Pairwise (fun a b => b.length ≤ a.length) →
      k' ∈ l → (plugins k').isSome → matchesKeyword t k' = true →
      ∃ k p, findMatch plugins t l = some p ∧ plugins k = some p ∧
        matchesKeyword t k = true ∧ k'.length ≤ k.length
  | [], _, hm, _, _ => absurd hm (List.not_mem_nil k')
  | x :: xs, hs, hm, hk', hmm => by
    rw [List.pairwise_cons] at hs
    by_cases hmx : matchesKeyword t x = true
    · cases hpx : plugins x with
      | some p =>
        refine ⟨x, p, ?_, hpx, hmx, ?_⟩
        · simp [findMatch, hmx, hpx]
        · rcases List.mem_cons.1 hm with rfl | hmem
          · exact Nat.le_refl _
          · exact hs.1 k' hmem
      | none =>
        have hmem : k' ∈ xs := by
          rcases List.mem_cons.1 hm with rfl | hmem
          · rw [hpx] at hk'; exact absurd hk' (by simp)
          · exact hmem
        obtain ⟨k, p, hfind, hpk, hmk, hlen⟩ := findMatch_longest hs.2 hmem hk' hmm
        exact ⟨k, p, by simp [findMatch, hmx, hpx, hfind], hpk, hmk, hlen⟩
    · have hne : k' ≠ x := fun he => hmx (he ▸ hmm)
      have hmem : k' ∈ xs := (List.mem_cons.1 hm).resolve_left hne
      obtain ⟨k, p, hfind, hpk, hmk, hlen⟩ := findMatch_longest hs.2 hmem hk' hmm
      exact ⟨k, p, by simp [findMatch, hmx, hfind], hpk, hmk, hlen⟩

/-- Anything the routing loop returns came out of the plugin map under a
boundary-matching keyword. -/
theorem findMatch_mem {plugins : GoString → Option Plugin} {t : GoString} {p : Plugin} :
    ∀ {l : List GoString}, findMatch plugins t l = some p →
      ∃ k, plugins k = some p ∧ matchesKeyword t k = true
  | [], h => by simp [findMatch] at h
  | x :: xs, h => by
    by_cases hmx : matchesKeyword t x = true
    · cases hpx : plugins x with
      | some q =>
        rw [findMatch, if_pos hmx, hpx] at h
        exact ⟨x, by rw [hpx]; exact h, hmx⟩
      | none =>
        rw [findMatch, if_pos hmx, hpx] at h
        exact findMatch_mem h
    · rw [findMatch, if_neg hmx] at h
      exact findMatch_mem h

/-- When no stored keyword matches, the loop finds nothing. -/
theorem findMatch_eq_none {plugins : GoString → Option Plugin} {t : GoString}
    (h : ∀ k, (plugins k).isSome → matchesKeyword t k = false) :
    ∀ l : List GoString, findMatch plugins t l = none
  | [] => rfl
  | x :: xs => by
    by_cases hmx : matchesKeyword t x = true
    · cases hpx : plugins x with
      | some q =>
        have := h x (by simp [hpx])
        rw [hmx] at this
        exact absurd this (by simp)
      | none => rw [findMatch, if_pos hmx, hpx]; exact findMatch_eq_none h xs
    · rw [findMatch, if_neg hmx]; exact findMatch_eq_none h xs

/-- The empty manager is well-formed. -/
theorem wf_new : WF NewPluginManager := by
  refine ⟨?_, ?_, ?_, ?_, ?_⟩
  · intro k p h; exact absurd h (by simp [NewPluginManager])
  · intro k h; exact absurd h (by simp [NewPluginManager])
  · intro k h; exact absurd h (by simp [NewPluginManager])
  · exact List.Pairwise.nil
  · intro d h; exact absurd h (by simp [NewPluginManager])

/-- Registration preserves well-formedness. -/
theorem wf_registerPlugin {pm : PluginManager} (hwf : WF pm) (p : Plugin) :
    WF (RegisterPlugin pm p).1 := by
  by_cases h0 : p.metadata.keyword = []
  · simpa [RegisterPlugin, h0] using hwf
  by_cases h1 : (pm.plugins p.metadata.keyword).isSome
  · simpa [RegisterPlugin, h0, h1] using hwf
  have kw_eq : ∀ k q, mapInsert pm.plugins p.metadata.keyword p k = some q → q.Keyword = k := by
    intro k q hq
    by_cases hk : k = p.metadata.keyword
    · subst hk
      simp only [mapInsert, if_true, eq_self_iff_true, ite_true, Option.some.injEq] at hq
      subst hq; rfl
    · exact hwf.kw_eq k q (by simpa [mapInsert, hk] using hq)
  have ne_nil : ∀ k, (mapInsert pm.plugins p.metadata.keyword p k).isSome = true → k ≠ [] := by
    intro k hk
    by_cases hk' : k = p.metadata.keyword
    · subst hk'; exact h0
    · exact hwf.ne_nil k (by simpa [mapInsert, hk'] using hk)
  have mem_keys : ∀ k, (mapInsert pm.plugins p.metadata.keyword p k).isSome = true →
      k ∈ insertByLenDesc p.metadata.keyword pm.sortedKeywords := by
    intro k hk
    by_cases hk' : k = p.metadata.keyword
    · subst hk'; exact mem_insertByLenDesc.2 (Or.inl rfl)
    · exact mem_insertByLenDesc.2
        (Or.inr (hwf.mem_keys k (by simpa [mapInsert, hk'] using hk)))
  have sorted := pairwise_insertByLenDesc (k := p.metadata.keyword) hwf.sorted
  by_cases hd : p.metadata.isDefault
  · have hstate : (RegisterPlugin pm p).1 =
        { pm with
          plugins := mapInsert pm.plugins p.metadata.keyword p
          sortedKeywords := insertByLenDesc p.metadata.keyword pm.sortedKeywords
          defaultPlugin := some p
          activePlugin := if pm.activePlugin.isNone then some p else pm.activePlugin } := by
      simp [RegisterPlugin, h0, h1, hd]
    rw [hstate]
    refine ⟨kw_eq, ne_nil, mem_keys, sorted, ?_⟩
    intro d hd'
    simp only [Option.some.injEq] at hd'
    subst hd'
    simp [mapInsert, Plugin.Keyword]
  · have hstate : (RegisterPlugin pm p).1 =
        { pm with
          plugins := mapInsert pm.plugins p.metadata.keyword p
          sortedKeywords := insertByLenDesc p.metadata.keyword pm.sortedKeywords } := by
      simp [RegisterPlugin, h0, h1, hd]
    rw [hstate]
    refine ⟨kw_eq, ne_nil, mem_keys, sorted, ?_⟩
    intro d hd'
    have := hwf.default_mem d hd'
    by_cases hk : d.Keyword = p.metadata.keyword
    · simp [mapInsert, hk]
    · simpa [mapInsert, hk] using this

/-- Setting the active reference to its current value is the identity. -/
theorem set_active_self {pm : PluginManager} {x : Option Plugin} (h : pm.activePlugin = x) :
    { pm with activePlugin := x } = pm := by
  rw [← h]

/-- `DetermineActivePlugin` touches no field except the active reference. -/
theorem determineActivePlugin_frame (pm : PluginManager) (q : GoString) :
    ((DetermineActivePlugin pm q).1).plugins = pm.plugins ∧
    ((DetermineActivePlugin pm q).1).sortedKeywords = pm.sortedKeywords ∧
    ((DetermineActivePlugin pm q).1).defaultPlugin = pm.defaultPlugin ∧
    ((DetermineActivePlugin pm q).1).disabledPluginsMetadata = pm.disabledPluginsMetadata := by
  simp only [DetermineActivePlugin]
  split <;> split <;> simp

/-- The `switched` flag is the keyword comparison, whatever else happens. -/
theorem determineActivePlugin_switched_eq (pm : PluginManager) (q : GoString) :
    (DetermineActivePlugin pm q).2.2 =
      decide (optKeyword pm.activePlugin ≠ optKeyword (determinePlugin pm q)) := rfl

/-- The returned plugin is the active reference of the returned state. -/
theorem determineActivePlugin_returns_active (pm : PluginManager) (q : GoString) :
    (DetermineActivePlugin pm q).2.1 = ((DetermineActivePlugin pm q).1).activePlugin := rfl

/-- A resolved `none` means the routing loop found nothing and no default is
registered. -/
theorem determinePlugin_eq_none {pm : PluginManager} {q : GoString}
    (h : determinePlugin pm q = none) : pm.defaultPlugin = none := by
  rw [determinePlugin] at h
  cases hf : findMatch pm.plugins (trimSpace q) pm.sortedKeywords with
  | some p => rw [hf] at h; exact absurd h (by simp)
  | none => rw [hf] at h; exact h

/-- Under well-formedness, the resolved plugin is absent or stored in the map
under its own non-empty keyword. -/
theorem determinePlugin_cases {pm : PluginManager} (hwf : WF pm) (q : GoString) :
    determinePlugin pm q = none ∨
      ∃ p, determinePlugin pm q = some p ∧ p.Keyword ≠ [] ∧
        (pm.plugins p.Keyword).isSome = true := by
  rw [determinePlugin]
  cases hf : findMatch pm.plugins (trimSpace q) pm.sortedKeywords with
  | some p =>
    obtain ⟨k, hpk, hmk⟩ := findMatch_mem hf
    have hkw : p.Keyword = k := hwf.kw_eq k p hpk
    refine Or.inr ⟨p, rfl, ?_, ?_⟩
    · rw [hkw]; exact matchesKeyword_ne_nil hmk
    · rw [hkw, hpk]; rfl
  | none =>
    cases hd : pm.defaultPlugin with
    | none => exact Or.inl rfl
    | some d =>
      exact Or.inr ⟨d, rfl, hwf.ne_nil _ (hwf.default_mem d hd), hwf.default_mem d hd⟩

/-- When the keyword comparison says "no switch", the call leaves the whole
state untouched (under well-formedness). -/
theorem determineActivePlugin_noswitch {pm : PluginManager} (hwf : WF pm) {q : GoString}
    (hsw : optKeyword pm.activePlugin = optKeyword (determinePlugin pm q)) :
    (DetermineActivePlugin pm q).1 = pm := by
  have hswb : decide (optKeyword pm.activePlugin ≠ optKeyword (determinePlugin pm q)) = false :=
    decide_eq_false (by simp [hsw])
  simp only [DetermineActivePlugin]
  rw [hswb]
  simp only [Bool.false_eq_true, if_false]
  cases hact : pm.activePlugin with
  | some a => simp
  | none =>
    rcases determinePlugin_cases hwf q with hdn | ⟨p, hdp, hpne, _⟩
    · have hdef : pm.defaultPlugin = none := determinePlugin_eq_none hdn
      simp only [Option.isNone_none, if_true]
      exact set_active_self (hact.trans hdef.symm)
    · rw [hact, hdp] at hsw
      exact absurd hsw.symm (by simpa [optKeyword] using hpne)

/-- The active keyword after a call is the resolved keyword (under
well-formedness). -/
theorem determineActivePlugin_active_keyword {pm : PluginManager} (hwf : WF pm) (q : GoString) :
    optKeyword ((DetermineActivePlugin pm q).1).activePlugin =
      optKeyword (determinePlugin pm q) := by
  by_cases hsw : optKeyword pm.activePlugin = optKeyword (determinePlugin pm q)
  · rw [determineActivePlugin_noswitch hwf hsw]; exact hsw
  · have hswb : decide (optKeyword pm.activePlugin ≠ optKeyword (determinePlugin pm q)) = true :=
      decide_eq_true hsw
    simp only [DetermineActivePlugin]
    rw [hswb]
    cases hdp : determinePlugin pm q with
    | some p => simp
    | none =>
      have hdef : pm.defaultPlugin = none := determinePlugin_eq_none hdp
      simp [hdef, optKeyword]

/-- `DetermineActivePlugin` preserves well-formedness. -/
theorem wf_determineActivePlugin {pm : PluginManager} (hwf : WF pm) (q : GoString) :
    WF ((DetermineActivePlugin pm q).1) := by
  obtain ⟨h1, h2, h3, _⟩ := determineActivePlugin_frame pm q
  exact ⟨by rw [h1]; exact hwf.kw_eq, by rw [h1]; exact hwf.ne_nil,
    by rw [h1, h2]; exact hwf.mem_keys, by rw [h2]; exact hwf.sorted,
    by rw [h1, h3]; exact hwf.default_mem⟩

/-- The routing decision depends only on the fields the call preserves, so it
is stable across a call. -/
theorem determinePlugin_after (pm : PluginManager) (q q' : GoString) :
    determinePlugin ((DetermineActivePlugin pm q).1) q' = determinePlugin pm q' := by
  obtain ⟨h1, h2, h3, _⟩ := determineActivePlugin_frame pm q
  rw [determinePlugin, determinePlugin, h1, h2, h3]

/-- Full characterization of `UpdatePluginInstance` on a registered, non-empty
keyword: the map entry is overwritten and the active and default references
follow exactly when their keyword coincides. -/
theorem updatePluginInstance_eq (pm : PluginManager) (p : Plugin)
    (hk : p.Keyword ≠ []) (hreg : (pm.plugins p.Keyword).isSome = true) :
    UpdatePluginInstance pm (some p) =
      { pm with
        plugins := mapInsert pm.plugins p.Keyword p
        activePlugin :=
          match pm.activePlugin with
          | some a => if a.Keyword = p.Keyword then some p else some a
          | none => none
        defaultPlugin :=
          match pm.defaultPlugin with
          | some d => if d.Keyword = p.Keyword then some p else some d
          | none => none } := by
  have hke : p.Keyword.isEmpty = false := by
    cases hkk : p.Keyword with
    | nil => exact absurd hkk hk
    | cons c cs => rfl
  have hn : (pm.plugins p.Keyword).isNone = false := by
    cases hpp : pm.plugins p.Keyword with
    | none => rw [hpp] at hreg; exact absurd hreg (by simp)
    | some _ => rfl
  cases hact : pm.activePlugin with
  | none =>
    cases hdef : pm.defaultPlugin with
    | none => simp [UpdatePluginInstance, hke, hn, hact, hdef]
    | some d =>
      by_cases hd : d.Keyword = p.Keyword <;>
        simp [UpdatePluginInstance, hke, hn, hact, hdef, hd]
  | some a =>
    cases hdef : pm.defaultPlugin with
    | none =>
      by_cases ha : a.Keyword = p.Keyword <;>
        simp [UpdatePluginInstance, hke, hn, hact, hdef, ha]
    | some d =>
      by_cases ha : a.Keyword = p.Keyword <;> by_cases hd : d.Keyword = p.Keyword <;>
        simp [UpdatePluginInstance, hke, hn, hact, hdef, ha, hd]

/-- `UpdatePluginInstance` is the identity on an unregistered or empty
keyword, and on a missing instance. -/
theorem updatePluginInstance_noop (pm : PluginManager) (p : Plugin)
    (h : (pm.plugins p.Keyword).isSome = false ∨ p.Keyword = []) :
    UpdatePluginInstance pm (some p) = pm := by
  rcases h with h | h
  · by_cases hke : p.Keyword.isEmpty
    · simp [UpdatePluginInstance, hke]
    · have hn : (pm.plugins p.Keyword).isNone = true := by
        cases hpp : pm.plugins p.Keyword with
        | none => rfl
        | some _ => rw [hpp] at h; exact absurd h (by simp)
      simp [UpdatePluginInstance, hke, hn]
  · have hke : p.Keyword.isEmpty = true := by rw [h]; rfl
    simp [UpdatePluginInstance, hke]

/-- A set default plugin survives every operation of the mutating interface. -/
theorem default_isSome_applyOp {pm : PluginManager} (h : pm.defaultPlugin.isSome = true) :
    ∀ op, ((applyOp pm op).defaultPlugin).isSome = true
  | .reg p => by
    by_cases h0 : p.metadata.keyword = []
    · simpa [applyOp, RegisterPlugin, h0] using h
    by_cases h1 : (pm.plugins p.metadata.keyword).isSome
    · simpa [applyOp, RegisterPlugin, h0, h1] using h
    by_cases hd : p.metadata.isDefault
    · simp [applyOp, RegisterPlugin, h0, h1, hd]
    · simpa [applyOp, RegisterPlugin, h0, h1, hd] using h
  | .det q => by
    obtain ⟨-, -, h3, -⟩ := determineActivePlugin_frame pm q
    simpa [applyOp, h3] using h
  | .upd po => by
    cases po with
    | none => simpa [applyOp, UpdatePluginInstance] using h
    | some p =>
      by_cases hreg : (pm.plugins p.Keyword).isSome = true
      · by_cases hk : p.Keyword = []
        · simpa [applyOp, updatePluginInstance_noop pm p (Or.inr hk)] using h
        · rw [applyOp, updatePluginInstance_eq pm p hk hreg]
          obtain ⟨d, hd⟩ := Option.isSome_iff_exists.1 h
          by_cases hdk : d.Keyword = p.Keyword <;> simp [hd, hdk]
      · have : (pm.plugins p.Keyword).isSome = false := by
          cases hres : (pm.plugins p.Keyword).isSome
          · rfl
          · exact absurd hres hreg
        simpa [applyOp, updatePluginInstance_noop pm p (Or.inl this)] using h

/-- A skipped failure file contributes nothing and stops nothing: the loader
loop behaves as if the file were absent. -/
theorem loadLoop_skips {f : PluginFile} (hf : isSkippedOutcome f.outcome = true) :
    ∀ (l r : List PluginFile), loadLoop (l ++ f :: r) = loadLoop (l ++ r)
  | [], r => by
    by_cases hc : (f.isDir || !hasGoSuffix f.name) = true
    · simp only [List.nil_append, loadLoop, hc, if_true]
    · simp only [List.nil_append, loadLoop, hc, if_false, Bool.false_eq_true]
      cases hfo : f.outcome <;> simp_all [isSkippedOutcome]
  | x :: xs, r => by
    simp only [List.cons_append, loadLoop, List.append_eq]
    rw [loadLoop_skips hf xs r]

/-- C1: over any well-formed registry and any query, the plugin selected by
`DetermineActivePlugin` boundary-matches the trimmed query whenever some
registered keyword does, its keyword is at least as long as every registered
boundary-matching keyword, and it is never a strict prefix of such a keyword
(so with `"!w"` and `"!wiki"` both registered, `"!wiki foo"` routes to
`"!wiki"`). -/
theorem determineActivePlugin_longest_match (pm : PluginManager) (hwf : WF pm)
    (query k' : GoString) (q' : Plugin) (hk' : pm.plugins k' = some q')
    (hm : matchesKeyword (trimSpace query) k' = true) :
    ∃ p, (DetermineActivePlugin pm query).2.1 = some p ∧
      matchesKeyword (trimSpace query) p.Keyword = true ∧
      k'.length ≤ p.Keyword.length ∧
      ¬(goHasPrefix k' p.Keyword = true ∧ p.Keyword ≠ k') := by
  have hk's : (pm.plugins k').isSome = true := by simp [hk']
  obtain ⟨k, p0, hfind, hpk, hmk, hlen⟩ :=
    findMatch_longest hwf.sorted (hwf.mem_keys k' hk's) hk's hm
  have hkw0 : p0.Keyword = k := hwf.kw_eq k p0 hpk
  have hdet : determinePlugin pm query = some p0 := by
    rw [determinePlugin, hfind]
  have hconc : ∀ a : Plugin, a.Keyword = k →
      matchesKeyword (trimSpace query) a.Keyword = true ∧
      k'.length ≤ a.Keyword.length ∧
      ¬(goHasPrefix k' a.Keyword = true ∧ a.Keyword ≠ k') := by
    intro a ha
    rw [ha]
    refine ⟨hmk, hlen, ?_⟩
    rintro ⟨hpre, hne⟩
    have := length_lt_of_goHasPrefix_of_ne hpre hne
    omega
  have hret := determineActivePlugin_active_keyword hwf query
  rw [hdet] at hret
  rw [determineActivePlugin_returns_active]
  cases hres : ((DetermineActivePlugin pm query).1).activePlugin with
  | none =>
    have hkne := matchesKeyword_ne_nil hmk
    rw [hres] at hret
    simp only [optKeyword, hkw0] at hret
    exact absurd hret.symm hkne
  | some a =>
    rw [hres] at hret
    have haK : a.Keyword = k := by simpa [optKeyword, hkw0] using hret
    exact ⟨a, rfl, hconc a haK⟩

/-- Witness for C1: with `"!a"` (default), `"!w"` and `"!wiki"` registered,
query `"!wiki foo"` selects the `"!wiki"` plugin, not the `"!w"` one. -/
theorem determineActivePlugin_longest_match_witness :
    WF pmAll ∧ pmAll.plugins (gs (r"!wiki")) = some pluginWiki ∧
    matchesKeyword (trimSpace (gs (r"!wiki foo"))) (gs (r"!wiki")) = true ∧
    (∃ p, (DetermineActivePlugin pmAll (gs (r"!wiki foo"))).2.1 = some p ∧
      matchesKeyword (trimSpace (gs (r"!wiki foo"))) p.Keyword = true ∧
      (gs (r"!wiki")).length ≤ p.Keyword.length ∧
      ¬(goHasPrefix (gs (r"!wiki")) p.Keyword = true ∧ p.Keyword ≠ gs (r"!wiki"))) ∧
    (DetermineActivePlugin pmAll (gs (r"!wiki foo"))).2.1 = some pluginWiki := by
  have hwf : WF pmAll :=
    wf_registerPlugin (wf_registerPlugin (wf_registerPlugin wf_new pluginA) pluginW) pluginWiki
  exact ⟨hwf, rfl, rfl,
    determineActivePlugin_longest_match pmAll hwf (gs (r"!wiki foo")) (gs (r"!wiki"))
      pluginWiki rfl rfl, rfl⟩

/-- C4: `switched` is true exactly when the resolved keyword differs from the
previously active keyword; on a non-switch the call leaves the state (in
particular the active reference) untouched; and an immediate second call with
the same query reports `switched = false` and changes nothing. -/
theorem determineActivePlugin_switched_spec (pm : PluginManager) (hwf : WF pm) (q : GoString) :
    ((DetermineActivePlugin pm q).2.2 = true ↔
      optKeyword (determinePlugin pm q) ≠ optKeyword pm.activePlugin) ∧
    ((DetermineActivePlugin pm q).2.2 = false → (DetermineActivePlugin pm q).1 = pm) ∧
    (DetermineActivePlugin ((DetermineActivePlugin pm q).1) q).2.2 = false ∧
    (DetermineActivePlugin ((DetermineActivePlugin pm q).1) q).1 =
      (DetermineActivePlugin pm q).1 := by
  have hiff : (DetermineActivePlugin pm q).2.2 = true ↔
      optKeyword (determinePlugin pm q) ≠ optKeyword pm.activePlugin := by
    rw [determineActivePlugin_switched_eq, decide_eq_true_eq]
    exact ne_comm
  have hsw2 : (DetermineActivePlugin ((DetermineActivePlugin pm q).1) q).2.2 = false := by
    rw [determineActivePlugin_switched_eq, determinePlugin_after,
      determineActivePlugin_active_keyword hwf q]
    simp
  refine ⟨hiff, ?_, hsw2, ?_⟩
  · intro hf
    rw [determineActivePlugin_switched_eq] at hf
    exact determineActivePlugin_noswitch hwf (not_ne_iff.1 (of_decide_eq_false hf))
  · have hwf2 := wf_determineActivePlugin hwf q
    have hek : optKeyword ((DetermineActivePlugin pm q).1).activePlugin =
        optKeyword (determinePlugin ((DetermineActivePlugin pm q).1) q) := by
      rw [determinePlugin_after, determineActivePlugin_active_keyword hwf q]
    exact determineActivePlugin_noswitch hwf2 hek

/-- Witness for C4: on `pmAll` (active `"!a"`), query `"!w term"` switches;
the immediate second identical call reports no switch and leaves the state
unchanged. -/
theorem determineActivePlugin_switched_spec_witness :
    WF pmAll ∧
    (DetermineActivePlugin pmAll (gs (r"!w term"))).2.2 = true ∧
    (DetermineActivePlugin pmActiveW (gs (r"!w term"))).2.2 = false ∧
    (DetermineActivePlugin pmActiveW (gs (r"!w term"))).1 = pmActiveW := by
  have hwf : WF pmAll :=
    wf_registerPlugin (wf_registerPlugin (wf_registerPlugin wf_new pluginA) pluginW) pluginWiki
  have h := determineActivePlugin_switched_spec pmAll hwf (gs (r"!w term"))
  exact ⟨hwf, rfl, h.2.2.1, h.2.2.2⟩

/-- C2 counterexample: the default plugin receives the raw query `" x"`, not
the trimmed `"x"`; and for active `"!w"` the query `"!w  x"` (two spaces)
yields `"x"`, not the plain keyword-and-one-separator remainder `" x"`. -/
theorem getResults_default_receives_raw :
    GetCurrentPlugin pmA = some pluginA ∧
    pluginA.metadata.isDefault = true ∧
    computePluginQuery pluginA (gs (r" x")) = gs (r" x") ∧
    trimSpace (gs (r" x")) = gs (r"x") ∧
    gs (r" x") ≠ trimSpace (gs (r" x")) ∧
    GetResults pmA (gs (r" x")) = (pmA, pluginA.getResults (gs (r" x"))) ∧
    GetCurrentPlugin pmActiveW = some pluginW ∧
    matchesKeyword (trimSpace (gs (r"!w  x"))) pluginW.Keyword = true ∧
    computePluginQuery pluginW (gs (r"!w  x")) = gs (r"x") ∧
    (trimSpace (gs (r"!w  x"))).drop (pluginW.Keyword.length + 1) = gs (r" x") ∧
    gs (r"x") ≠ gs (r" x") :=
  ⟨rfl, rfl, rfl, rfl, by decide, rfl, rfl, rfl, rfl, rfl, by decide⟩

/-- C2 (amended): `GetResults` hands the active plugin an effective query
computed as follows: the default plugin receives the raw query untouched (not
trimmed); a non-default active plugin whose keyword boundary-matches the
trimmed query receives `""` when the trimmed query is exactly the keyword,
and otherwise the remainder after the keyword and one following space,
additionally trimmed of surrounding whitespace. -/
theorem getResults_effective_query (pm : PluginManager) (q : GoString) (p : Plugin)
    (hp : GetCurrentPlugin pm = some p) :
    (p.metadata.isDefault = true → GetResults pm q = (pm, p.getResults q)) ∧
    (p.metadata.isDefault = false → matchesKeyword (trimSpace q) p.Keyword = true →
      ((trimSpace q).length = p.Keyword.length → GetResults pm q = (pm, p.getResults [])) ∧
      (p.Keyword.length < (trimSpace q).length →
        GetResults pm q =
          (pm, p.getResults (trimSpace ((trimSpace q).drop (p.Keyword.length + 1)))))) := by
  have hGR : GetResults pm q = (pm, p.getResults (computePluginQuery p q)) := by
    simp only [GetResults, hp]
  constructor
  · intro hdef
    rw [hGR]
    have hq : computePluginQuery p q = q := by
      simp [computePluginQuery, hdef]
    rw [hq]
  · intro hndef hm
    obtain ⟨hkne, hpre, hcases⟩ := matchesKeyword_iff.1 hm
    have hke : p.Keyword.isEmpty = false := by
      cases hkk : p.Keyword with
      | nil => exact absurd hkk hkne
      | cons c cs => rfl
    constructor
    · intro hlen
      rw [hGR]
      have hq : computePluginQuery p q = [] := by
        simp [computePluginQuery, hndef, hke, hpre, hlen, Nat.blt_eq]
      rw [hq]
    · intro hlt
      have hsp : (trimSpace q)[p.Keyword.length]? = some ' ' := by
        rcases hcases with he | ⟨_, hs⟩
        · exact absurd he (by omega)
        · exact hs
      rw [hGR]
      have hq : computePluginQuery p q =
          trimSpace ((trimSpace q).drop (p.Keyword.length + 1)) := by
        simp [computePluginQuery, hndef, hke, hpre, hlt, hsp, Nat.blt_eq]
      rw [hq]

/-- Witness for C2 (amended): with `"!w"` active, `"!w life on mars"` yields
the effective query `"life on mars"` and `"!w"` alone yields `""`. -/
theorem getResults_effective_query_witness :
    GetCurrentPlugin pmActiveW = some pluginW ∧
    pluginW.metadata.isDefault = false ∧
    matchesKeyword (trimSpace (gs (r"!w life on mars"))) pluginW.Keyword = true ∧
    pluginW.Keyword.length < (trimSpace (gs (r"!w life on mars"))).length ∧
    GetResults pmActiveW (gs (r"!w life on mars")) =
      (pmActiveW, pluginW.getResults
        (trimSpace ((trimSpace (gs (r"!w life on mars"))).drop (pluginW.Keyword.length + 1)))) ∧
    trimSpace ((trimSpace (gs (r"!w life on mars"))).drop (pluginW.Keyword.length + 1)) =
      gs (r"life on mars") ∧
    matchesKeyword (trimSpace (gs (r"!w"))) pluginW.Keyword = true ∧
    (trimSpace (gs (r"!w"))).length = pluginW.Keyword.length ∧
    GetResults pmActiveW (gs (r"!w")) = (pmActiveW, pluginW.getResults []) := by
  have h1 := getResults_effective_query pmActiveW (gs (r"!w life on mars")) pluginW rfl
  have h2 := getResults_effective_query pmActiveW (gs (r"!w")) pluginW rfl
  exact ⟨rfl, rfl, rfl, by decide, (h1.2 rfl rfl).2 (by decide), rfl, rfl, rfl,
    (h2.2 rfl rfl).1 rfl⟩

/-- C5: registration returns an error on an empty keyword and on a duplicate
keyword, and the failed call changes nothing: the stored instance, the
keyword list and the default and active references are all as before. -/
theorem registerPlugin_rejects (pm : PluginManager) (p : Plugin) :
    (p.metadata.keyword = [] → RegisterPlugin pm p = (pm, some RegError.emptyKeyword)) ∧
    (∀ q, p.metadata.keyword ≠ [] → pm.plugins p.metadata.keyword = some q →
      RegisterPlugin pm p = (pm, some RegError.duplicateKeyword) ∧
      ((RegisterPlugin pm p).1).plugins p.metadata.keyword = some q ∧
      ((RegisterPlugin pm p).1).sortedKeywords = pm.sortedKeywords ∧
      ((RegisterPlugin pm p).1).defaultPlugin = pm.defaultPlugin ∧
      ((RegisterPlugin pm p).1).activePlugin = pm.activePlugin) := by
  constructor
  · intro h
    simp [RegisterPlugin, h]
  · intro q hne hq
    have hs : (pm.plugins p.metadata.keyword).isSome = true := by simp [hq]
    have hreg : RegisterPlugin pm p = (pm, some RegError.duplicateKeyword) := by
      simp [RegisterPlugin, hne, hs]
    exact ⟨hreg, by rw [hreg]; exact hq, by rw [hreg], by rw [hreg], by rw [hreg]⟩

/-- Witness for C5: registering an empty keyword fails, and a second instance
with keyword `"!w"` fails while the first instance stays registered. -/
theorem registerPlugin_rejects_witness :
    pluginEmptyKw.metadata.keyword = [] ∧
    RegisterPlugin pmAll pluginEmptyKw = (pmAll, some RegError.emptyKeyword) ∧
    pluginW2.metadata.keyword ≠ [] ∧
    pmAll.plugins pluginW2.metadata.keyword = some pluginW ∧
    RegisterPlugin pmAll pluginW2 = (pmAll, some RegError.duplicateKeyword) ∧
    ((RegisterPlugin pmAll pluginW2).1).plugins (gs (r"!w")) = some pluginW := by
  have h2 := (registerPlugin_rejects pmAll pluginW2).2 pluginW (by decide) rfl
  exact ⟨rfl, (registerPlugin_rejects pmAll pluginEmptyKw).1 rfl, by decide, rfl, h2.1, h2.2.1⟩

/-- C10: with no active and no default plugin, `GetResults` returns no
results together with an error, and the state component is returned
untouched. -/
theorem getResults_no_active_plugin (pm : PluginManager) (q : GoString)
    (h : GetCurrentPlugin pm = none) :
    GetResults pm q = (pm, ([], some GoErr.noActivePlugin)) := by
  simp only [GetResults, h]

/-- Witness for C10 on the freshly created manager. -/
theorem getResults_no_active_plugin_witness :
    GetCurrentPlugin NewPluginManager = none ∧
    GetResults NewPluginManager (gs (r"anything")) =
      (NewPluginManager, ([], some GoErr.noActivePlugin)) :=
  ⟨rfl, getResults_no_active_plugin NewPluginManager (gs (r"anything")) rfl⟩

/-- C6 counterexample: registering a single non-default plugin succeeds, yet
`GetCurrentPlugin` still reports no plugin, so "once any plugin is registered
the active reference is never unset" fails. -/
theorem getCurrentPlugin_unset_after_nondefault :
    (RegisterPlugin NewPluginManager pluginW).2 = none ∧
    GetCurrentPlugin (RegisterPlugin NewPluginManager pluginW).1 = none :=
  ⟨rfl, rfl⟩

/-- C6 (amended): once a default plugin is registered (the default reference
is set), `GetCurrentPlugin` never reports an unset plugin after any sequence
of register / `DetermineActivePlugin` / `UpdatePluginInstance` operations:
whenever the active reference is unset it falls back to the default. -/
theorem getCurrentPlugin_never_unset (pm : PluginManager)
    (h : pm.defaultPlugin.isSome = true) (ops : List Op) :
    ((applyOps pm ops).defaultPlugin).isSome = true ∧
    GetCurrentPlugin (applyOps pm ops) ≠ none := by
  induction ops generalizing pm with
  | nil =>
    refine ⟨h, ?_⟩
    obtain ⟨d, hd⟩ := Option.isSome_iff_exists.1 h
    cases hact : pm.activePlugin with
    | none => simp [applyOps, GetCurrentPlugin, hact, hd]
    | some a => simp [applyOps, GetCurrentPlugin, hact]
  | cons op ops ih =>
    have h' := default_isSome_applyOp h op
    simpa [applyOps, List.foldl] using ih (applyOp pm op) h'

/-- Witness for C6 (amended): a concrete operation sequence on a manager
whose default is registered. -/
theorem getCurrentPlugin_never_unset_witness :
    pmA.defaultPlugin.isSome = true ∧
    GetCurrentPlugin (applyOps pmA
      [Op.reg pluginW, Op.det (gs (r"!w x")), Op.upd (some pluginW2), Op.det []]) ≠ none :=
  ⟨rfl, (getCurrentPlugin_never_unset pmA rfl
    [Op.reg pluginW, Op.det (gs (r"!w x")), Op.upd (some pluginW2), Op.det []]).2⟩

/-- C3 (code bug at the escape-key path): type `"a"`, let the debounce fire so
a `getResults("a")` command is in flight, then press escape.  The text is now
empty, yet the in-flight message for `"a"` still passes the staleness guard
(which compares against `lastQuery`, not against the current text) and
replaces the displayed list, while the refresh for the now-current empty
query is discarded as "stale". -/
theorem staleness_guard_misses_after_escape :
    (updateProcessQuery m3Typed).2 = some (gs (r"a")) ∧
    (updateEscKey m3Flight).2 = some [] ∧
    m3Esc.textValue = [] ∧
    m3Esc.lastQuery = gs (r"a") ∧
    msg3Stale.forQuery ≠ m3Esc.textValue ∧
    m3Esc.items = [] ∧
    (updateResultsMsg m3Esc msg3Stale).items = [⟨gs (r"hit"), [], gs (r"hit")⟩] ∧
    msg3Fresh.forQuery = m3Esc.textValue ∧
    updateResultsMsg m3Esc msg3Fresh = m3Esc :=
  ⟨rfl, rfl, rfl, rfl, by decide, rfl, rfl, rfl, rfl⟩

/-- C7 counterexample: a file whose constructor panics is not caught: loading
aborts instead of skipping it, so the valid file after it is lost — even
though that valid file loads fine on its own. -/
theorem loadPlugins_ctor_panic_aborts :
    isSkippedOutcome fPanic.outcome = false ∧
    LoadPlugins (DirState.files [fPanic, fGood]) = none ∧
    LoadPlugins (DirState.files [fGood]) = some ([pluginYaegi], none) :=
  ⟨rfl, rfl, rfl⟩

/-- C7 (amended): the loader skips a candidate file on a caught failure
(unreadable file, symbol-injection error, evaluation error, missing or
ill-typed `main.New`, `nil` constructor result) and continues with the
remaining files as if the failed file were absent; and a missing plugin
directory (or missing config home) yields an empty set and no error.  (A
panicking constructor is not caught and aborts loading.) -/
theorem loadPlugins_skips_failures (f : PluginFile) (l r : List PluginFile)
    (hf : isSkippedOutcome f.outcome = true) :
    LoadPlugins (DirState.files (l ++ f :: r)) = LoadPlugins (DirState.files (l ++ r)) ∧
    LoadPlugins DirState.pluginDirMissing = some ([], none) ∧
    LoadPlugins DirState.configHomeMissing = some ([], none) := by
  refine ⟨?_, rfl, rfl⟩
  simp only [LoadPlugins]
  rw [loadLoop_skips hf l r]

/-- Witness for C7 (amended): a file failing top-level evaluation is skipped
and the valid file after it still loads. -/
theorem loadPlugins_skips_failures_witness :
    isSkippedOutcome fEvalErr.outcome = true ∧
    LoadPlugins (DirState.files ([] ++ fEvalErr :: [fGood])) =
      LoadPlugins (DirState.files ([] ++ [fGood])) ∧
    LoadPlugins (DirState.files [fEvalErr, fGood]) = some ([pluginYaegi], none) ∧
    LoadPlugins DirState.pluginDirMissing = some ([], none) := by
  have h := loadPlugins_skips_failures fEvalErr [] [fGood] rfl
  exact ⟨rfl, h.1, rfl, h.2.1⟩

/-- C8: updating an instance whose non-empty keyword is registered replaces
exactly that keyword's map entry, leaves every other entry and the rest of
the registry untouched, and retargets the active and default references
exactly when their keyword is the updated one; a nil instance, an empty
keyword or an unregistered keyword leaves the whole state unchanged. -/
theorem updatePluginInstance_spec (pm : PluginManager) (p : Plugin) :
    (p.Keyword ≠ [] → (pm.plugins p.Keyword).isSome = true →
      (UpdatePluginInstance pm (some p)).plugins p.Keyword = some p ∧
      (∀ k, k ≠ p.Keyword → (UpdatePluginInstance pm (some p)).plugins k = pm.plugins k) ∧
      (UpdatePluginInstance pm (some p)).sortedKeywords = pm.sortedKeywords ∧
      (UpdatePluginInstance pm (some p)).disabledPluginsMetadata =
        pm.disabledPluginsMetadata ∧
      (UpdatePluginInstance pm (some p)).activePlugin =
        (match pm.activePlugin with
          | some a => if a.Keyword = p.Keyword then some p else some a
          | none => none) ∧
      (UpdatePluginInstance pm (some p)).defaultPlugin =
        (match pm.defaultPlugin with
          | some d => if d.Keyword = p.Keyword then some p else some d
          | none => none)) ∧
    ((pm.plugins p.Keyword).isSome = false ∨ p.Keyword = [] →
      UpdatePluginInstance pm (some p) = pm) ∧
    UpdatePluginInstance pm none = pm := by
  refine ⟨?_, updatePluginInstance_noop pm p, rfl⟩
  intro hk hreg
  rw [updatePluginInstance_eq pm p hk hreg]
  refine ⟨by simp [mapInsert], ?_, rfl, rfl, rfl, rfl⟩
  intro k hkne
  simp [mapInsert, hkne]

/-- Witness for C8: updating the `"!w"` entry of `pmAll` with a new instance
replaces it, leaves `"!wiki"` and the active reference alone; updating an
unregistered keyword changes nothing. -/
theorem updatePluginInstance_spec_witness :
    pluginW2.Keyword ≠ [] ∧
    (pmAll.plugins pluginW2.Keyword).isSome = true ∧
    (UpdatePluginInstance pmAll (some pluginW2)).plugins (gs (r"!w")) = some pluginW2 ∧
    (UpdatePluginInstance pmAll (some pluginW2)).plugins (gs (r"!wiki")) =
      pmAll.plugins (gs (r"!wiki")) ∧
    (UpdatePluginInstance pmAll (some pluginW2)).activePlugin = pmAll.activePlugin ∧
    UpdatePluginInstance pmAll (some pluginDis9) = pmAll := by
  have h := (updatePluginInstance_spec pmAll pluginW2).1 (by decide) rfl
  exact ⟨by decide, rfl, h.1, h.2.1 (gs (r"!wiki")) (by decide), rfl,
    (updatePluginInstance_spec pmAll pluginDis9).2.1 (Or.inl rfl)⟩

/-- `RegisterMetadata` never touches the routing state; it records the
metadata when the keyword is non-empty and not enabled. -/
theorem registerMetadata_frame (pm : PluginManager) (md : Metadata) :
    ((RegisterMetadata pm md).1).plugins = pm.plugins ∧
    ((RegisterMetadata pm md).1).sortedKeywords = pm.sortedKeywords ∧
    ((RegisterMetadata pm md).1).defaultPlugin = pm.defaultPlugin ∧
    ((RegisterMetadata pm md).1).activePlugin = pm.activePlugin ∧
    (md.keyword ≠ [] → (pm.plugins md.keyword).isSome = false →
      ((RegisterMetadata pm md).1).disabledPluginsMetadata md.keyword = some md) := by
  by_cases h0 : md.keyword = []
  · simp [RegisterMetadata, h0]
  by_cases h1 : (pm.plugins md.keyword).isSome
  · simp [RegisterMetadata, h0, h1]
  · simp [RegisterMetadata, h0, h1, mapInsert]

/-- C9 counterexample: register (via the startup loop, empty enable list) a
default `"!d"`, an enabled `"x"` and an optional plugin with keyword `"x y"`.
The `"x y"` plugin stays metadata-only, and the query `"x y"` — which begins
with that disabled-only keyword — routes to the enabled `"x"` plugin, not to
the default as the claim states. -/
theorem disabled_keyword_routes_elsewhere :
    (registerPluginsLoop [] NewPluginManager [pluginD9, pluginX9, pluginDis9]).isSome = true ∧
    (pm9.plugins (gs (r"x y"))).isSome = false ∧
    pm9.disabledPluginsMetadata (gs (r"x y")) = some pluginDis9.metadata ∧
    matchesKeyword (trimSpace (gs (r"x y"))) (gs (r"x y")) = true ∧
    optKeyword (DetermineActivePlugin pm9 (gs (r"x y"))).2.1 = gs (r"x") ∧
    optKeyword pm9.defaultPlugin = gs (r"!d") ∧
    gs (r"x") ≠ gs (r"!d") :=
  ⟨rfl, rfl, rfl, rfl, rfl, rfl, by decide⟩

/-- C9 (amended): a plugin that is neither mandatory nor flag-enabled has
only its metadata recorded — the routing state is untouched — and its
disabled-only keyword is never routable: the selected plugin never carries
it, and whenever no enabled keyword boundary-matches the query the default
plugin is resolved. -/
theorem disabled_plugin_never_routed (enabledFlags : List GoString) (pm : PluginManager)
    (p : Plugin) (hmand : p.metadata.isMandatory = false)
    (hflag : p.metadata.flag ∉ enabledFlags) :
    (registerPluginsStep enabledFlags pm p = some (RegisterMetadata pm p.metadata).1 ∧
      ((RegisterMetadata pm p.metadata).1).plugins = pm.plugins ∧
      ((RegisterMetadata pm p.metadata).1).sortedKeywords = pm.sortedKeywords ∧
      ((RegisterMetadata pm p.metadata).1).defaultPlugin = pm.defaultPlugin ∧
      ((RegisterMetadata pm p.metadata).1).activePlugin = pm.activePlugin ∧
      (p.Keyword ≠ [] → (pm.plugins p.Keyword).isSome = false →
        ((RegisterMetadata pm p.metadata).1).disabledPluginsMetadata p.Keyword =
          some p.metadata)) ∧
    (WF pm → (pm.plugins p.Keyword).isSome = false → p.Keyword ≠ [] →
      ∀ q, optKeyword (DetermineActivePlugin pm q).2.1 ≠ p.Keyword) ∧
    (∀ q, (∀ k, (pm.plugins k).isSome = true → matchesKeyword (trimSpace q) k = false) →
      determinePlugin pm q = pm.defaultPlugin ∧
      (WF pm → optKeyword (DetermineActivePlugin pm q).2.1 = optKeyword pm.defaultPlugin)) := by
  refine ⟨?_, ?_, ?_⟩
  · have hstep : registerPluginsStep enabledFlags pm p =
        some (RegisterMetadata pm p.metadata).1 := by
      simp [registerPluginsStep, hmand, hflag]
    obtain ⟨hf1, hf2, hf3, hf4, hf5⟩ := registerMetadata_frame pm p.metadata
    exact ⟨hstep, hf1, hf2, hf3, hf4, hf5⟩
  · intro hwf hnot hkne q
    rw [determineActivePlugin_returns_active, determineActivePlugin_active_keyword hwf q]
    rcases determinePlugin_cases hwf q with hdn | ⟨pp, hdp, _, hps⟩
    · rw [hdn]
      exact fun he => hkne he.symm
    · rw [hdp]
      intro he
      simp only [optKeyword] at he
      rw [he] at hps
      rw [hps] at hnot
      exact absurd hnot (by simp)
  · intro q hnom
    have hdd : determinePlugin pm q = pm.defaultPlugin := by
      rw [determinePlugin, findMatch_eq_none hnom pm.sortedKeywords]
    refine ⟨hdd, fun hwf => ?_⟩
    rw [determineActivePlugin_returns_active, determineActivePlugin_active_keyword hwf q, hdd]

/-- Witness for C9 (amended): with `"!a"`, `"!w"`, `"!wiki"` enabled, the
optional space-keyword plugin is metadata-only and its keyword never routes. -/
theorem disabled_plugin_never_routed_witness :
    pluginDis9.metadata.isMandatory = false ∧
    pluginDis9.metadata.flag ∉ ([] : List GoString) ∧
    WF pmAll ∧
    (pmAll.plugins pluginDis9.Keyword).isSome = false ∧
    pluginDis9.Keyword ≠ [] ∧
    registerPluginsStep [] pmAll pluginDis9 = some (RegisterMetadata pmAll pluginDis9.metadata).1 ∧
    optKeyword (DetermineActivePlugin pmAll (gs (r"x y"))).2.1 ≠ pluginDis9.Keyword := by
  have hwf : WF pmAll :=
    wf_registerPlugin (wf_registerPlugin (wf_registerPlugin wf_new pluginA) pluginW) pluginWiki
  have h := disabled_plugin_never_routed [] pmAll pluginDis9 rfl (by simp)
  exact ⟨rfl, by simp, hwf, rfl, by decide, h.1.1, h.2.1 hwf rfl (by decide) (gs (r"x y"))⟩

end Incipio
